import Mathlib

/-!
Shallow embedding of the beat scheduler, click synthesizer, visual sync
bridge and recorder glue of the metronome-recorder app.  The primary
embedding follows `src/src/App.tsx`; the namespace `RootApp` re-transcribes
the scheduler of `src/App.tsx` for the equivalence claim.  Clock times,
tempos and gains are modelled as rationals.
-/

set_option autoImplicit false

namespace Metronome

/-- Scheduler state held in the refs `currentBeatRef` and `nextNoteTimeRef`
(src/src/App.tsx lines 49-50).  `currentBeat` is the signed scheduling
cursor, `nextNoteTime` the absolute audio-clock time of the next beat. -/
structure SchedState where
  currentBeat : Int
  nextNoteTime : ℚ
deriving Repr, DecidableEq

/-- The lookahead window `scheduleAheadTime = 0.1` seconds
(src/src/App.tsx line 119). -/
def scheduleAheadTime : ℚ := 1 / 10

/-- The poll period `schedulerLookahead = 25.0` milliseconds passed to
`setInterval` (src/src/App.tsx lines 120 and 161). -/
def schedulerPollMs : ℚ := 25

/-- `const secondsPerBeat = 60.0 / tempo` (src/src/App.tsx line 150). -/
def secondsPerBeat (tempo : ℚ) : ℚ := 60 / tempo

/-- Everything one iteration of the scheduler while-loop emits for the beat
at the head of the queue (src/src/App.tsx lines 124-148): the cursor value,
the audio time, the visual index handed to the delayed highlight update,
whether `playClick` is invoked and with which beat argument, whether a
deferred CountingIn-to-Running flip is scheduled, and the `setTimeout`
delay (in milliseconds, clamped at 0) of the visual update. -/
structure BeatEvent where
  beat : Int
  time : ℚ
  visualBeat : Int
  clickPlayed : Bool
  clickBeatArg : Int
  countInFlip : Bool
  visualDelayMs : ℚ
deriving Repr, DecidableEq

/-- The emission part of one loop iteration (src/src/App.tsx lines 124-148),
as a function of the tempo-independent data: the pattern, the value of
`isCountingInRef` (constant during one synchronous poll), the clock reading
`now`, and the scheduler state.  Count-in beats (`beat < 0`) always click
with the shifted argument `beat + 4`; pattern beats click only when
`clickPattern[beat]` holds (an out-of-range JS read is `undefined`, hence
falsy, modelled by `List.getD` with default `false`). -/
def mkEvent (pattern : List Bool) (ci : Bool) (now : ℚ) (st : SchedState) :
    BeatEvent :=
  let beat := st.currentBeat
  let time := st.nextNoteTime
  let visualBeat := if beat < 0 then beat + 4 else beat
  let delay := (time - now) * 1000
  { beat := beat
    time := time
    visualBeat := visualBeat
    clickPlayed := if beat < 0 then true else pattern.getD beat.toNat false
    clickBeatArg := if beat < 0 then visualBeat else beat
    countInFlip := if beat < 0 then false else (beat == 0 && ci)
    visualDelayMs := if delay > 0 then delay else 0 }

/-- The state-update part of one loop iteration (src/src/App.tsx lines
150-155): advance `nextNoteTime` by `secondsPerBeat` and increment the
cursor, wrapping to 0 once it reaches 16. -/
def stepState (tempo : ℚ) (st : SchedState) : SchedState :=
  let b := st.currentBeat + 1
  { currentBeat := if 16 ≤ b then 0 else b
    nextNoteTime := st.nextNoteTime + secondsPerBeat tempo }

/-- The scheduler while-loop, with an explicit bound `fuel` on the number of
iterations (the source loop runs until the guard fails; `schedulerLoop`
instantiates `fuel` with a sufficient bound and `schedulerLoop_eq` recovers
the loop's defining equation). -/
def loopFuel (tempo : ℚ) (pattern : List Bool) (ci : Bool) (now : ℚ) :
    Nat → SchedState → SchedState × List BeatEvent
  | 0, st => (st, [])
  | fuel + 1, st =>
    if st.nextNoteTime < now + scheduleAheadTime then
      let r := loopFuel tempo pattern ci now fuel (stepState tempo st)
      (r.1, mkEvent pattern ci now st :: r.2)
    else (st, [])

/-- Upper bound on the number of beats whose due time lies strictly before
`now + scheduleAheadTime`, starting from due time `t` and advancing by
`secondsPerBeat tempo`; it is exactly the iteration count of the source's
while-loop for positive tempo. -/
def neededBeats (tempo now t : ℚ) : Nat :=
  (⌈(now + scheduleAheadTime - t) * tempo / 60⌉).toNat

/-- One synchronous call of `scheduler` (src/src/App.tsx lines 122-157):
drains every beat due inside the lookahead window, returning the final
scheduler state and the list of emitted beat events in increasing time
order. -/
def schedulerLoop (tempo : ℚ) (pattern : List Bool) (ci : Bool) (now : ℚ)
    (st : SchedState) : SchedState × List BeatEvent :=
  loopFuel tempo pattern ci now (neededBeats tempo now st.nextNoteTime) st

/-- A whole sequence of scheduler polls: each entry of `polls` is the clock
reading at that poll together with the value of `isCountingInRef` during
it.  Returns the final state and the concatenated event trace. -/
def pollTrace (tempo : ℚ) (pattern : List Bool) :
    SchedState → List (ℚ × Bool) → SchedState × List BeatEvent
  | st, [] => (st, [])
  | st, (now, ci) :: rest =>
    let r := schedulerLoop tempo pattern ci now st
    let r2 := pollTrace tempo pattern r.1 rest
    (r2.1, r.2 ++ r2.2)

/-- The `justStarted` branch of the scheduler effect (src/src/App.tsx lines
109-112): cursor -4, next event due a tenth of a second from now. -/
def startState (now : ℚ) : SchedState :=
  { currentBeat := -4, nextNoteTime := now + 1 / 10 }

/-- The resync branch of the scheduler effect, taken when the effect
re-runs while already playing (src/src/App.tsx lines 113-117): cursor 0,
next event due a tenth of a second from now. -/
def resyncState (now : ℚ) : SchedState :=
  { currentBeat := 0, nextNoteTime := now + 1 / 10 }

/-- The poll-independent content of a scheduled beat: everything in
`BeatEvent` except the two fields that read the clock or the counting-in
ref (`visualDelayMs` and `countInFlip`). -/
structure BeatCore where
  beat : Int
  time : ℚ
  visualBeat : Int
  clickPlayed : Bool
  clickBeatArg : Int
deriving Repr, DecidableEq

/-- Projection of an emitted event onto its poll-independent content. -/
def coreOf (e : BeatEvent) : BeatCore :=
  { beat := e.beat
    time := e.time
    visualBeat := e.visualBeat
    clickPlayed := e.clickPlayed
    clickBeatArg := e.clickBeatArg }

/-- The poll-independent content of the beat scheduled from state `st`. -/
def coreAt (pattern : List Bool) (st : SchedState) : BeatCore :=
  coreOf (mkEvent pattern false 0 st)

theorem coreOf_mkEvent (pattern : List Bool) (ci : Bool) (now : ℚ)
    (st : SchedState) : coreOf (mkEvent pattern ci now st) = coreAt pattern st := rfl

/-- Unrolling of the fuelled while-loop: it returns some number `n` of
iterations of the state update, and the emitted events are exactly the
events of the iterated states, in order. -/
theorem loopFuel_spec (tempo : ℚ) (pattern : List Bool) (ci : Bool) (now : ℚ) :
    ∀ fuel st, ∃ n : ℕ,
      (loopFuel tempo pattern ci now fuel st).1 = (stepState tempo)^[n] st ∧
      (loopFuel tempo pattern ci now fuel st).2 =
        (List.range n).map
          (fun i => mkEvent pattern ci now ((stepState tempo)^[i] st)) := by
  intro fuel
  induction fuel with
  | zero => exact fun st => ⟨0, rfl, rfl⟩
  | succ fuel ih =>
    intro st
    by_cases h : st.nextNoteTime < now + scheduleAheadTime
    · obtain ⟨n, h1, h2⟩ := ih (stepState tempo st)
      refine ⟨n + 1, ?_, ?_⟩
      · simp only [loopFuel, if_pos h, h1, Function.iterate_succ_apply]
      · simp only [loopFuel, if_pos h, h2, List.range_succ_eq_map,
          List.map_cons, List.map_map]
        refine congrArg₂ List.cons rfl (congrArg₂ List.map (funext fun i => ?_) rfl)
        simp [Function.comp, Function.iterate_succ_apply]
    · exact ⟨0, by simp [loopFuel, if_neg h], by simp [loopFuel, if_neg h]⟩

/-- The poll-independent content of a whole multi-poll trace is an initial
segment of the iterated beat sequence, whatever the poll clock readings
and counting-in flags were. -/
theorem pollTrace_spec (tempo : ℚ) (pattern : List Bool) :
    ∀ (polls : List (ℚ × Bool)) (st : SchedState), ∃ n : ℕ,
      (pollTrace tempo pattern st polls).1 = (stepState tempo)^[n] st ∧
      ((pollTrace tempo pattern st polls).2).map coreOf =
        (List.range n).map
          (fun i => coreAt pattern ((stepState tempo)^[i] st)) := by
  intro polls
  induction polls with
  | nil => exact fun st => ⟨0, rfl, rfl⟩
  | cons p rest ih =>
    intro st
    obtain ⟨now, ci⟩ := p
    obtain ⟨n1, e1, e2⟩ :=
      loopFuel_spec tempo pattern ci now (neededBeats tempo now st.nextNoteTime) st
    obtain ⟨n2, f1, f2⟩ := ih ((schedulerLoop tempo pattern ci now st).1)
    refine ⟨n1 + n2, ?_, ?_⟩
    · show (pollTrace tempo pattern
          ((schedulerLoop tempo pattern ci now st).1) rest).1 = _
      rw [f1, schedulerLoop, e1, ← Function.iterate_add_apply, Nat.add_comm]
    · show ((schedulerLoop tempo pattern ci now st).2 ++
          (pollTrace tempo pattern ((schedulerLoop tempo pattern ci now st).1)
            rest).2).map coreOf = _
      rw [List.map_append, f2, schedulerLoop, e1, e2, List.map_map,
        List.range_add, List.map_append, List.map_map]
      refine congrArg₂ List.append
        (congrArg₂ List.map (funext fun i => ?_) rfl)
        (congrArg₂ List.map (funext fun i => ?_) rfl)
      · simp [Function.comp, coreOf_mkEvent]
      · simp [Function.comp, ← Function.iterate_add_apply, Nat.add_comm]

/-- The audio time of the state reached after `n` scheduled beats: each
beat advances the due time by exactly one inter-beat duration. -/
theorem nextNoteTime_iterate (tempo : ℚ) (st : SchedState) (n : ℕ) :
    ((stepState tempo)^[n] st).nextNoteTime =
      st.nextNoteTime + n * secondsPerBeat tempo := by
  induction n with
  | zero => simp
  | succ n ih =>
    rw [Function.iterate_succ_apply']
    show ((stepState tempo)^[n] st).nextNoteTime + secondsPerBeat tempo = _
    rw [ih]
    push_cast
    ring

theorem coreAt_time (pattern : List Bool) (st : SchedState) :
    (coreAt pattern st).time = st.nextNoteTime := rfl

theorem coreAt_beat (pattern : List Bool) (st : SchedState) :
    (coreAt pattern st).beat = st.currentBeat := rfl

/-- For positive tempo the chosen fuel drops by exactly one across a loop
iteration, so the fuelled loop satisfies the while-loop's recursion. -/
theorem neededBeats_step (tempo now t : ℚ) (ht : 0 < tempo)
    (hlt : t < now + scheduleAheadTime) :
    neededBeats tempo now t =
      neededBeats tempo now (t + secondsPerBeat tempo) + 1 := by
  unfold neededBeats secondsPerBeat
  have key : (now + scheduleAheadTime - (t + 60 / tempo)) * tempo / 60
      = (now + scheduleAheadTime - t) * tempo / 60 - 1 := by
    field_simp
    ring
  rw [key]
  rw [show ((now + scheduleAheadTime - t) * tempo / 60 - 1 : ℚ)
      = (now + scheduleAheadTime - t) * tempo / 60 - (1 : ℤ) by push_cast; ring]
  rw [Int.ceil_sub_int]
  have hpos : 0 < (now + scheduleAheadTime - t) * tempo / 60 := by
    apply div_pos (mul_pos (by linarith) ht) (by norm_num)
  have h1 : 0 < ⌈(now + scheduleAheadTime - t) * tempo / 60⌉ := Int.ceil_pos.mpr hpos
  omega

/-- The fuelled `schedulerLoop` satisfies the defining equation of the
source's while-loop (src/src/App.tsx lines 124-156) for every positive
tempo, i.e. for every tempo the UI can produce. -/
theorem schedulerLoop_eq (tempo : ℚ) (pattern : List Bool) (ci : Bool)
    (now : ℚ) (st : SchedState) (ht : 0 < tempo) :
    schedulerLoop tempo pattern ci now st =
      if st.nextNoteTime < now + scheduleAheadTime then
        ((schedulerLoop tempo pattern ci now (stepState tempo st)).1,
          mkEvent pattern ci now st ::
            (schedulerLoop tempo pattern ci now (stepState tempo st)).2)
      else (st, []) := by
  by_cases h : st.nextNoteTime < now + scheduleAheadTime
  · rw [if_pos h]
    show loopFuel tempo pattern ci now (neededBeats tempo now st.nextNoteTime) st = _
    rw [neededBeats_step tempo now st.nextNoteTime ht h]
    simp only [loopFuel, if_pos h]
    rfl
  · rw [if_neg h]
    show loopFuel tempo pattern ci now (neededBeats tempo now st.nextNoteTime) st = _
    cases neededBeats tempo now st.nextNoteTime with
    | zero => rfl
    | succ k => simp only [loopFuel, if_neg h]

theorem coreAt_clickPlayed (pattern : List Bool) (st : SchedState) :
    (coreAt pattern st).clickPlayed =
      if st.currentBeat < 0 then true
      else pattern.getD st.currentBeat.toNat false := rfl

theorem coreAt_visualBeat (pattern : List Bool) (st : SchedState) :
    (coreAt pattern st).visualBeat =
      if st.currentBeat < 0 then st.currentBeat + 4 else st.currentBeat := rfl

/-- The i-th scheduled beat of a whole multi-poll trace has the
poll-independent content of the i-th iterate of the per-beat state update. -/
theorem pollTrace_core (tempo : ℚ) (pattern : List Bool) (st : SchedState)
    (polls : List (ℚ × Bool)) (i : ℕ)
    (h : i < ((pollTrace tempo pattern st polls).2).length) :
    coreOf ((pollTrace tempo pattern st polls).2.get ⟨i, h⟩) =
      coreAt pattern ((stepState tempo)^[i] st) := by
  obtain ⟨n, -, h2⟩ := pollTrace_spec tempo pattern polls st
  have hm : i < ((pollTrace tempo pattern st polls).2.map coreOf).length := by
    simpa using h
  have e := List.getElem_of_eq h2 hm
  simp only [List.getElem_map, List.getElem_range] at e
  simpa [List.get_eq_getElem] using e

theorem pollTrace_time (tempo : ℚ) (pattern : List Bool) (st : SchedState)
    (polls : List (ℚ × Bool)) (i : ℕ)
    (h : i < ((pollTrace tempo pattern st polls).2).length) :
    ((pollTrace tempo pattern st polls).2.get ⟨i, h⟩).time =
      st.nextNoteTime + i * secondsPerBeat tempo := by
  have e := congrArg BeatCore.time (pollTrace_core tempo pattern st polls i h)
  rw [coreAt_time, nextNoteTime_iterate] at e
  exact e

theorem pollTrace_beat (tempo : ℚ) (pattern : List Bool) (st : SchedState)
    (polls : List (ℚ × Bool)) (i : ℕ)
    (h : i < ((pollTrace tempo pattern st polls).2).length) :
    ((pollTrace tempo pattern st polls).2.get ⟨i, h⟩).beat =
      ((stepState tempo)^[i] st).currentBeat := by
  have e := congrArg BeatCore.beat (pollTrace_core tempo pattern st polls i h)
  rw [coreAt_beat] at e
  exact e

/-- Claim C1: for every tempo in the UI range [40, 240], whatever the poll
clock readings, the audio times of consecutively scheduled beats in the
trace started by transport start differ by exactly 60/tempo seconds (this
covers the count-in beats and the pattern beats alike), and the first beat
is due 0.1 seconds after the clock reading at start. -/
theorem beat_spacing_and_first_beat (tempo t0 : ℚ) (pattern : List Bool)
    (polls : List (ℚ × Bool)) (ht : 40 ≤ tempo ∧ tempo ≤ 240) :
    (∀ i : ℕ,
        ∀ hi : i < ((pollTrace tempo pattern (startState t0) polls).2).length,
        ∀ hi1 : i + 1 < ((pollTrace tempo pattern (startState t0) polls).2).length,
        ((pollTrace tempo pattern (startState t0) polls).2.get ⟨i + 1, hi1⟩).time -
          ((pollTrace tempo pattern (startState t0) polls).2.get ⟨i, hi⟩).time =
            60 / tempo) ∧
    (∀ h0 : 0 < ((pollTrace tempo pattern (startState t0) polls).2).length,
        ((pollTrace tempo pattern (startState t0) polls).2.get ⟨0, h0⟩).time =
          t0 + 1 / 10) := by
  constructor
  · intro i hi hi1
    rw [pollTrace_time tempo pattern (startState t0) polls (i + 1) hi1,
      pollTrace_time tempo pattern (startState t0) polls i hi]
    simp only [secondsPerBeat]
    push_cast
    ring
  · intro h0
    rw [pollTrace_time tempo pattern (startState t0) polls 0 h0]
    simp [startState]

/-- The cursor during and right after the count-in: starting from the
restart state, the i-th scheduled beat (i at most 4) has cursor i - 4. -/
theorem currentBeat_iterate_start (tempo now : ℚ) :
    ∀ i : ℕ, i ≤ 4 →
      ((stepState tempo)^[i] (startState now)).currentBeat = (i : ℤ) - 4 := by
  intro i
  induction i with
  | zero => intro _; simp [startState]
  | succ i ih =>
    intro hi
    have hb := ih (by omega)
    rw [Function.iterate_succ_apply']
    show (if 16 ≤ ((stepState tempo)^[i] (startState now)).currentBeat + 1 then 0
        else ((stepState tempo)^[i] (startState now)).currentBeat + 1) = _
    rw [hb, if_neg (by omega)]
    push_cast
    ring

/-- Claim C2: for every tempo in [40, 240] and every 16-entry pattern,
starting transport from Stopped sets the cursor to -4 and the next event
time to now + 0.1 s, and in any resulting poll trace the first four
scheduled beats are count-in beats that trigger the click synthesizer
regardless of the pattern content, while the fifth scheduled beat is the
first pattern-governed one (cursor 0, audible iff the pattern's entry 0 is
set). -/
theorem count_in_clicks (tempo now : ℚ) (pattern : List Bool)
    (polls : List (ℚ × Bool)) (ht : 40 ≤ tempo ∧ tempo ≤ 240)
    (hp : pattern.length = 16) :
    (startState now).currentBeat = -4 ∧
    (startState now).nextNoteTime = now + 1 / 10 ∧
    (∀ i : ℕ,
        ∀ hi : i < ((pollTrace tempo pattern (startState now) polls).2).length,
        i < 4 →
        ((pollTrace tempo pattern (startState now) polls).2.get ⟨i, hi⟩).beat < 0 ∧
        ((pollTrace tempo pattern (startState now) polls).2.get ⟨i, hi⟩).clickPlayed
          = true) ∧
    (∀ h4 : 4 < ((pollTrace tempo pattern (startState now) polls).2).length,
        ((pollTrace tempo pattern (startState now) polls).2.get ⟨4, h4⟩).beat = 0 ∧
        ((pollTrace tempo pattern (startState now) polls).2.get ⟨4, h4⟩).clickPlayed
          = pattern.getD 0 false) := by
  refine ⟨rfl, rfl, ?_, ?_⟩
  · intro i hi hlt
    have hbeat := pollTrace_beat tempo pattern (startState now) polls i hi
    rw [currentBeat_iterate_start tempo now i (by omega)] at hbeat
    have hneg : ((pollTrace tempo pattern (startState now) polls).2.get
        ⟨i, hi⟩).beat < 0 := by omega
    refine ⟨hneg, ?_⟩
    have hcp := congrArg BeatCore.clickPlayed
      (pollTrace_core tempo pattern (startState now) polls i hi)
    rw [coreAt_clickPlayed] at hcp
    rw [show (coreOf ((pollTrace tempo pattern (startState now) polls).2.get
        ⟨i, hi⟩)).clickPlayed
      = ((pollTrace tempo pattern (startState now) polls).2.get
        ⟨i, hi⟩).clickPlayed from rfl] at hcp
    rw [hcp, if_pos]
    rw [currentBeat_iterate_start tempo now i (by omega)]
    omega
  · intro h4
    have hbeat := pollTrace_beat tempo pattern (startState now) polls 4 h4
    rw [currentBeat_iterate_start tempo now 4 (by omega)] at hbeat
    have hb0 : ((pollTrace tempo pattern (startState now) polls).2.get
        ⟨4, h4⟩).beat = 0 := by omega
    refine ⟨hb0, ?_⟩
    have hcp := congrArg BeatCore.clickPlayed
      (pollTrace_core tempo pattern (startState now) polls 4 h4)
    rw [coreAt_clickPlayed] at hcp
    rw [show (coreOf ((pollTrace tempo pattern (startState now) polls).2.get
        ⟨4, h4⟩)).clickPlayed
      = ((pollTrace tempo pattern (startState now) polls).2.get
        ⟨4, h4⟩).clickPlayed from rfl] at hcp
    rw [hcp, currentBeat_iterate_start tempo now 4 (by omega)]
    norm_num

/-- Witness for claim C1 at tempo 120, start clock 0, all-true pattern, and
polls at clock 0 and clock 1: the first two scheduled beats are half a
second apart. -/
theorem beat_spacing_and_first_beat_witness :
    (40 ≤ (120 : ℚ) ∧ (120 : ℚ) ≤ 240) ∧
    ((pollTrace 120 (List.replicate 16 true) (startState 0)
        [(0, true), (1, true)]).2.get
      ⟨0 + 1, by norm_num [pollTrace, schedulerLoop, neededBeats,
        scheduleAheadTime, loopFuel, stepState, mkEvent, startState,
        secondsPerBeat]⟩).time -
      ((pollTrace 120 (List.replicate 16 true) (startState 0)
          [(0, true), (1, true)]).2.get
        ⟨0, by norm_num [pollTrace, schedulerLoop, neededBeats,
          scheduleAheadTime, loopFuel, stepState, mkEvent, startState,
          secondsPerBeat]⟩).time = 60 / 120 := by
  refine ⟨by norm_num, ?_⟩
  exact (beat_spacing_and_first_beat 120 0 (List.replicate 16 true)
    [(0, true), (1, true)] (by norm_num)).1 0
    (by norm_num [pollTrace, schedulerLoop, neededBeats, scheduleAheadTime,
      loopFuel, stepState, mkEvent, startState, secondsPerBeat])
    (by norm_num [pollTrace, schedulerLoop, neededBeats, scheduleAheadTime,
      loopFuel, stepState, mkEvent, startState, secondsPerBeat])

/-- Witness for claim C2 at tempo 120, start clock 0, the all-false
pattern, and polls at clock 0 and clock 3: the first count-in beat still
clicks although no pattern entry is set, and the fifth scheduled beat is
the silent pattern beat 0. -/
theorem count_in_clicks_witness :
    (startState (0 : ℚ)).currentBeat = -4 ∧
    (startState (0 : ℚ)).nextNoteTime = 0 + 1 / 10 ∧
    (((pollTrace 120 (List.replicate 16 false) (startState 0)
        [(0, true), (3, true)]).2.get
      ⟨0, by norm_num [pollTrace, schedulerLoop, neededBeats,
        scheduleAheadTime, loopFuel, stepState, mkEvent, startState,
        secondsPerBeat]⟩).beat < 0 ∧
      ((pollTrace 120 (List.replicate 16 false) (startState 0)
          [(0, true), (3, true)]).2.get
        ⟨0, by norm_num [pollTrace, schedulerLoop, neededBeats,
          scheduleAheadTime, loopFuel, stepState, mkEvent, startState,
          secondsPerBeat]⟩).clickPlayed = true) ∧
    (((pollTrace 120 (List.replicate 16 false) (startState 0)
        [(0, true), (3, true)]).2.get
      ⟨4, by norm_num [pollTrace, schedulerLoop, neededBeats,
        scheduleAheadTime, loopFuel, stepState, mkEvent, startState,
        secondsPerBeat]⟩).beat = 0 ∧
      ((pollTrace 120 (List.replicate 16 false) (startState 0)
          [(0, true), (3, true)]).2.get
        ⟨4, by norm_num [pollTrace, schedulerLoop, neededBeats,
          scheduleAheadTime, loopFuel, stepState, mkEvent, startState,
          secondsPerBeat]⟩).clickPlayed = (List.replicate 16 false).getD 0 false) := by
  have h := count_in_clicks 120 0 (List.replicate 16 false)
    [(0, true), (3, true)] (by norm_num) (by simp)
  refine ⟨h.1, h.2.1, h.2.2.1 0 ?_ (by omega), h.2.2.2 ?_⟩
  all_goals
    norm_num [pollTrace, schedulerLoop, neededBeats, scheduleAheadTime,
      loopFuel, stepState, mkEvent, startState, secondsPerBeat]

/-- The `standard` preset pattern (src/src/App.tsx line 6). -/
def presetStandard : List Bool := List.replicate 16 true

/-- The `tresillo` preset pattern, two copies of an 8-step cell
(src/src/App.tsx line 9). -/
def presetTresillo : List Bool :=
  [true, false, false, true, false, true, false, false,
   true, false, false, true, false, true, false, false]

/-- Claim C3: on a pattern beat (cursor at least 0) the click synthesizer
is triggered exactly when the pattern entry at the cursor is set; the
scheduled visual highlight update carries the cursor as its index whether
or not the beat is audible, and the cursor advances by one (wrapping 16 to
0). -/
theorem pattern_beat_click_and_visual (tempo : ℚ) (pattern : List Bool)
    (ci : Bool) (now : ℚ) (st : SchedState) (h0 : 0 ≤ st.currentBeat) :
    (mkEvent pattern ci now st).clickPlayed
      = pattern.getD st.currentBeat.toNat false ∧
    (mkEvent pattern ci now st).visualBeat = st.currentBeat ∧
    (stepState tempo st).currentBeat
      = (if 16 ≤ st.currentBeat + 1 then 0 else st.currentBeat + 1) := by
  have hn : ¬ st.currentBeat < 0 := by omega
  refine ⟨?_, ?_, rfl⟩
  · show (if st.currentBeat < 0 then true
      else pattern.getD st.currentBeat.toNat false) = _
    rw [if_neg hn]
  · show (if st.currentBeat < 0 then st.currentBeat + 4 else st.currentBeat) = _
    rw [if_neg hn]

/-- Witness for claim C3 at the silent tresillo step 1: no click is
played, yet the visual index is the cursor and the cursor advances. -/
theorem pattern_beat_click_and_visual_witness :
    ((0 : ℤ) ≤ (⟨1, 2⟩ : SchedState).currentBeat) ∧
    (mkEvent presetTresillo true 0 ⟨1, 2⟩).clickPlayed = false ∧
    (mkEvent presetTresillo true 0 ⟨1, 2⟩).visualBeat = 1 ∧
    (stepState 90 ⟨1, 2⟩).currentBeat = 2 := by
  have h := pattern_beat_click_and_visual 90 presetTresillo true 0 ⟨1, 2⟩
    (by norm_num)
  refine ⟨by norm_num, ?_, h.2.1, ?_⟩
  · rw [h.1]; rfl
  · rw [h.2.2]; decide

/-- The scheduler states reachable within one transport session: the
restart state, any resync state reached after it, and any state reached by
scheduling one more beat. -/
inductive SessionReachable (tempo : ℚ) : SchedState → Prop
  | start (now : ℚ) : SessionReachable tempo (startState now)
  | resync (now : ℚ) {st : SchedState} (h : SessionReachable tempo st) :
      SessionReachable tempo (resyncState now)
  | step {st : SchedState} (h : SessionReachable tempo st) :
      SessionReachable tempo (stepState tempo st)

/-- One in-session transition that is not a restart: scheduling a beat, or
a resync caused by a settings change while running. -/
def sessionStep (tempo : ℚ) (a b : SchedState) : Prop :=
  b = stepState tempo a ∨ ∃ now : ℚ, b = resyncState now

/-- Claim C4: in every reachable scheduler state of a session the cursor
lies in [-4, 15]; each scheduled beat increments it by one with 16
wrapping to 0; and once the cursor is non-negative it stays non-negative
under every further in-session transition. -/
theorem cursor_invariant (tempo : ℚ) (st : SchedState)
    (h : SessionReachable tempo st) :
    (-4 ≤ st.currentBeat ∧ st.currentBeat ≤ 15) ∧
    ((stepState tempo st).currentBeat =
      if 16 ≤ st.currentBeat + 1 then 0 else st.currentBeat + 1) ∧
    (∀ st' : SchedState, 0 ≤ st.currentBeat →
      Relation.ReflTransGen (sessionStep tempo) st st' →
      0 ≤ st'.currentBeat) := by
  refine ⟨?_, rfl, ?_⟩
  · induction h with
    | start now => refine ⟨le_refl _, by norm_num [startState]⟩
    | resync now h ih => refine ⟨by norm_num [resyncState], by norm_num [resyncState]⟩
    | step h ih =>
      obtain ⟨l, u⟩ := ih
      show -4 ≤ (if 16 ≤ _ + 1 then 0 else _ + 1) ∧
        (if 16 ≤ _ + 1 then 0 else _ + 1) ≤ 15
      split <;> omega
  · intro st' h0 hsteps
    induction hsteps with
    | refl => exact h0
    | tail hab hbc ih =>
      rcases hbc with heq | ⟨now, heq⟩
      · subst heq
        show (0 : ℤ) ≤ (if 16 ≤ _ + 1 then 0 else _ + 1)
        split <;> omega
      · subst heq
        norm_num [resyncState]

/-- Witness for claim C4 at tempo 120: the resync state reached after a
start satisfies the bounds, and one further scheduled beat keeps the
cursor non-negative. -/
theorem cursor_invariant_witness :
    (-4 ≤ (resyncState (0 : ℚ)).currentBeat ∧
      (resyncState (0 : ℚ)).currentBeat ≤ 15) ∧
    (0 : ℤ) ≤ (stepState 120 (resyncState 0)).currentBeat := by
  have h := cursor_invariant 120 (resyncState 0)
    (SessionReachable.resync 0 (SessionReachable.start 0))
  exact ⟨h.1, h.2.2 (stepState 120 (resyncState 0)) (by norm_num [resyncState])
    (Relation.ReflTransGen.single (Or.inl rfl))⟩

/-- The values watched by the scheduler effect.  Its dependency array is
`[isPlaying, tempo, clickPattern, playClick]` (src/src/App.tsx line 167)
and `playClick` is a `useCallback` whose own dependency array is
`[volume]` (line 83), so the effect observes a volume change through the
new identity of `playClick`.  React re-runs the effect exactly when one of
these values changed since the previous render. -/
structure EffectDeps where
  isPlaying : Bool
  tempo : ℚ
  clickPattern : List Bool
  volume : ℚ
deriving Repr, DecidableEq

/-- The scheduler-effect state the setup branches write: the cursor ref,
the next-note-time ref and the `isCountingIn` flag. -/
structure EffectState where
  currentBeat : Int
  nextNoteTime : ℚ
  isCountingIn : Bool
deriving Repr, DecidableEq

/-- The setup branches of the scheduler effect when playing
(src/src/App.tsx lines 107-117): a fresh start (`justStarted`) enters the
count-in at cursor -4, while any other re-run while playing resyncs to
cursor 0; both set the next event a tenth of a second from now. -/
def effectSetup (prevIsPlaying isPlaying : Bool) (now : ℚ)
    (st : EffectState) : EffectState :=
  if !prevIsPlaying && isPlaying then
    { currentBeat := -4, nextNoteTime := now + 1 / 10, isCountingIn := true }
  else if isPlaying then
    { currentBeat := 0, nextNoteTime := now + 1 / 10, isCountingIn := false }
  else st

/-- Effect re-run semantics across one render: if any watched dependency
changed, the effect re-runs its setup (with `prevIsPlaying` the previous
render's `isPlaying`); otherwise the scheduler state is untouched. -/
def applyDepsChange (dPrev dNext : EffectDeps) (now : ℚ)
    (st : EffectState) : EffectState :=
  if dPrev = dNext then st
  else effectSetup dPrev.isPlaying dNext.isPlaying now st

/-- Claim C5: a tempo or pattern change while the transport is running
resets the cursor to 0 and the next event time to now + 0.1 s and leaves
the count-in sub-phase, regardless of the scheduler state reached so far
(partial-beat continuity is dropped). -/
theorem settings_change_resync (dPrev dNext : EffectDeps) (now : ℚ)
    (st : EffectState)
    (hPrev : dPrev.isPlaying = true) (hNext : dNext.isPlaying = true)
    (hchg : dPrev.tempo ≠ dNext.tempo ∨ dPrev.clickPattern ≠ dNext.clickPattern) :
    applyDepsChange dPrev dNext now st =
      { currentBeat := 0, nextNoteTime := now + 1 / 10, isCountingIn := false } := by
  have hne : dPrev ≠ dNext := by
    intro h
    subst h
    rcases hchg with h | h <;> exact h rfl
  unfold applyDepsChange
  rw [if_neg hne]
  unfold effectSetup
  rw [hPrev, hNext]
  simp

/-- Witness for claim C5: a tempo change from 120 to 90 in mid-play, with
the cursor at 5 and count-in still set, resyncs to cursor 0 at now + 0.1. -/
theorem settings_change_resync_witness :
    ((⟨true, 120, List.replicate 16 true, 1/2⟩ : EffectDeps).isPlaying = true) ∧
    ((⟨true, 90, List.replicate 16 true, 1/2⟩ : EffectDeps).isPlaying = true) ∧
    ((⟨true, 120, List.replicate 16 true, 1/2⟩ : EffectDeps).tempo ≠
      (⟨true, 90, List.replicate 16 true, 1/2⟩ : EffectDeps).tempo) ∧
    applyDepsChange ⟨true, 120, List.replicate 16 true, 1/2⟩
        ⟨true, 90, List.replicate 16 true, 1/2⟩ 7 ⟨5, 3, true⟩ =
      ⟨0, 7 + 1 / 10, false⟩ := by
  refine ⟨rfl, rfl, by norm_num, ?_⟩
  exact settings_change_resync ⟨true, 120, List.replicate 16 true, 1/2⟩
    ⟨true, 90, List.replicate 16 true, 1/2⟩ 7 ⟨5, 3, true⟩ rfl rfl
    (Or.inl (by norm_num))

/-- One outstanding delayed highlight callback registered through
`window.setTimeout` and tracked in `visualTimeoutIdsRef`
(src/src/App.tsx lines 143-148). -/
structure VisualTimer where
  visualBeat : Int
  dueDelayMs : ℚ
deriving Repr, DecidableEq

/-- The UI-facing state the stop branch manipulates: the playing flags,
the highlighted beat `currentBeat`, whether the poll interval is alive,
and the set of pending visual timers. -/
structure UiState where
  isPlaying : Bool
  isCountingIn : Bool
  currentBeat : Int
  pollActive : Bool
  pendingVisuals : List VisualTimer
deriving Repr, DecidableEq

/-- The stop branch of the scheduler effect (src/src/App.tsx lines 91-96):
on `!isPlaying` it clears the poll interval, clears every pending visual
timeout, resets the highlight to -1 and leaves the count-in sub-phase. -/
def stopBranch (s : UiState) : UiState :=
  { s with
    pollActive := false
    pendingVisuals := []
    currentBeat := -1
    isCountingIn := false }

/-- Firing of one visual `setTimeout` callback (src/src/App.tsx lines
144-147): a callback whose timer is still pending updates the highlighted
beat and removes itself; a timer already cancelled by `clearTimeout`
never fires, which is modelled by leaving the state unchanged. -/
def fireVisual (s : UiState) (tm : VisualTimer) : UiState :=
  if tm ∈ s.pendingVisuals then
    { s with
      currentBeat := tm.visualBeat
      pendingVisuals := s.pendingVisuals.erase tm }
  else s

/-- The cleanup the scheduler effect runs before it re-runs on a
dependency change (src/src/App.tsx lines 163-166): the old poll interval
is cancelled and every pending visual timeout cleared. -/
def effectCleanup (s : UiState) : UiState :=
  { s with pollActive := false, pendingVisuals := [] }

/-- The re-run's replacement of the poll while playing (src/src/App.tsx
lines 159-161): any previous interval is cleared and a fresh poll is
installed. -/
def installPoll (s : UiState) : UiState :=
  { s with pollActive := true }

/-- The UI-facing effect of a dependency-change re-run while playing:
if a watched dependency changed, the cleanup cancels the poll and every
pending visual timeout and the re-run installs a fresh poll; otherwise
nothing happens. -/
def applyDepsChangeUi (dPrev dNext : EffectDeps) (s : UiState) : UiState :=
  if dPrev = dNext then s
  else installPoll (effectCleanup s)

/-- A state with no pending visual timer is fixed by every sequence of
visual callback firings: a cancelled timer never fires. -/
theorem foldl_fireVisual_of_empty (tms : List VisualTimer) (s0 : UiState)
    (h : s0.pendingVisuals = []) : tms.foldl fireVisual s0 = s0 := by
  induction tms with
  | nil => rfl
  | cons t ts ih =>
    show ts.foldl fireVisual (fireVisual s0 t) = s0
    have hfix : fireVisual s0 t = s0 := by
      unfold fireVisual
      rw [h]
      simp
    rw [hfix]
    exact ih

/-- Claim C6: stopping transport cancels the scheduler poll and every
pending visual timer and resets the highlight to -1; afterwards no
sequence of visual callback firings can ever change the highlighted beat
again. -/
theorem stop_cancels_visuals (s : UiState) :
    (stopBranch s).pollActive = false ∧
    (stopBranch s).pendingVisuals = [] ∧
    (stopBranch s).currentBeat = -1 ∧
    ∀ tms : List VisualTimer,
      (tms.foldl fireVisual (stopBranch s)).currentBeat = -1 := by
  refine ⟨rfl, rfl, rfl, ?_⟩
  intro tms
  rw [foldl_fireVisual_of_empty tms (stopBranch s) rfl]
  rfl

/-- The click synthesizer `playClick` (src/src/App.tsx lines 60-83), as
the description of the tone it schedules: frequency 880 on downbeat
arguments (multiples of 4) and 660 otherwise, a gain envelope that starts
at 0, ramps linearly to the captured `volume` by 10 ms and decays
exponentially to 0.001 by 80 ms, and oscillator start/stop times. -/
structure ClickEvent where
  freq : ℚ
  gainStart : ℚ
  rampTarget : ℚ
  rampEndTime : ℚ
  decayTarget : ℚ
  decayEndTime : ℚ
  startTime : ℚ
  stopTime : ℚ
deriving Repr, DecidableEq

def playClick (volume : ℚ) (beat : Int) (time : ℚ) : ClickEvent :=
  { freq := if beat % 4 = 0 then 880 else 660
    gainStart := 0
    rampTarget := volume
    rampEndTime := time + 1 / 100
    decayTarget := 1 / 1000
    decayEndTime := time + 8 / 100
    startTime := time
    stopTime := time + 8 / 100 }

/-- Counterexample to claim C7: these two dependency snapshots differ only
in the volume, yet the effect re-run they trigger changes the scheduler
state (cursor 7 becomes 0), so a volume change while running does not
leave cursor, next-event time and phase untouched. -/
theorem volume_change_not_transparent :
    ((⟨true, 120, List.replicate 16 true, 1/2⟩ : EffectDeps).isPlaying =
      (⟨true, 120, List.replicate 16 true, 3/4⟩ : EffectDeps).isPlaying) ∧
    ((⟨true, 120, List.replicate 16 true, 1/2⟩ : EffectDeps).tempo =
      (⟨true, 120, List.replicate 16 true, 3/4⟩ : EffectDeps).tempo) ∧
    ((⟨true, 120, List.replicate 16 true, 1/2⟩ : EffectDeps).clickPattern =
      (⟨true, 120, List.replicate 16 true, 3/4⟩ : EffectDeps).clickPattern) ∧
    ((⟨true, 120, List.replicate 16 true, 1/2⟩ : EffectDeps).volume ≠
      (⟨true, 120, List.replicate 16 true, 3/4⟩ : EffectDeps).volume) ∧
    applyDepsChange ⟨true, 120, List.replicate 16 true, 1/2⟩
        ⟨true, 120, List.replicate 16 true, 3/4⟩ 50 ⟨7, 320, false⟩ ≠
      ⟨7, 320, false⟩ := by
  refine ⟨rfl, rfl, rfl, by norm_num, ?_⟩
  have hne : (⟨true, 120, List.replicate 16 true, 1/2⟩ : EffectDeps) ≠
      ⟨true, 120, List.replicate 16 true, 3/4⟩ := by
    intro h
    have := congrArg EffectDeps.volume h
    norm_num at this
  have hres : applyDepsChange ⟨true, 120, List.replicate 16 true, 1/2⟩
      ⟨true, 120, List.replicate 16 true, 3/4⟩ 50 ⟨7, 320, false⟩ =
      ⟨0, 50 + 1 / 10, false⟩ := by
    unfold applyDepsChange
    rw [if_neg hne]
    unfold effectSetup
    simp
  rw [hres]
  intro h
  have := congrArg EffectState.currentBeat h
  norm_num at this

/-- Claim C7 as amended: a volume change while running makes clicks
scheduled afterwards ramp to the new volume, but, because `playClick` is
a dependency of the scheduler effect, it also re-runs the effect and so
resyncs the scheduler exactly like a tempo or pattern change: cursor 0,
next event at now + 0.1 s, count-in left, every pending visual timer
cancelled (so no stale highlight can fire), and the poll replaced by a
fresh one. -/
theorem volume_change_resync (dPrev dNext : EffectDeps) (now : ℚ)
    (st : EffectState) (ui : UiState)
    (hPrev : dPrev.isPlaying = true) (hNext : dNext.isPlaying = true)
    (hvol : dPrev.volume ≠ dNext.volume) :
    applyDepsChange dPrev dNext now st =
      { currentBeat := 0, nextNoteTime := now + 1 / 10, isCountingIn := false } ∧
    (applyDepsChangeUi dPrev dNext ui).pendingVisuals = [] ∧
    (applyDepsChangeUi dPrev dNext ui).pollActive = true ∧
    (∀ tms : List VisualTimer,
      tms.foldl fireVisual (applyDepsChangeUi dPrev dNext ui) =
        applyDepsChangeUi dPrev dNext ui) ∧
    ∀ (b : Int) (t : ℚ), (playClick dNext.volume b t).rampTarget = dNext.volume := by
  have hne : dPrev ≠ dNext := fun h => hvol (congrArg EffectDeps.volume h)
  have hui : applyDepsChangeUi dPrev dNext ui = installPoll (effectCleanup ui) := by
    unfold applyDepsChangeUi
    rw [if_neg hne]
  refine ⟨?_, ?_, ?_, ?_, fun b t => rfl⟩
  · unfold applyDepsChange
    rw [if_neg hne]
    unfold effectSetup
    rw [hPrev, hNext]
    simp
  · rw [hui]; rfl
  · rw [hui]; rfl
  · intro tms
    rw [hui, foldl_fireVisual_of_empty tms (installPoll (effectCleanup ui)) rfl]

/-- Witness for the amended claim C7: the volume change from 1/2 to 3/4
resyncs the scheduler, clears a pending visual timer, keeps a fresh poll
active, and the next click ramps to 3/4. -/
theorem volume_change_resync_witness :
    ((⟨true, 120, List.replicate 16 true, 1/2⟩ : EffectDeps).isPlaying = true) ∧
    ((⟨true, 120, List.replicate 16 true, 3/4⟩ : EffectDeps).isPlaying = true) ∧
    ((⟨true, 120, List.replicate 16 true, 1/2⟩ : EffectDeps).volume ≠
      (⟨true, 120, List.replicate 16 true, 3/4⟩ : EffectDeps).volume) ∧
    applyDepsChange ⟨true, 120, List.replicate 16 true, 1/2⟩
        ⟨true, 120, List.replicate 16 true, 3/4⟩ 50 ⟨7, 320, false⟩ =
      ⟨0, 50 + 1 / 10, false⟩ ∧
    (applyDepsChangeUi ⟨true, 120, List.replicate 16 true, 1/2⟩
        ⟨true, 120, List.replicate 16 true, 3/4⟩
        ⟨true, false, 3, true, [⟨3, 20⟩]⟩).pendingVisuals = [] ∧
    (applyDepsChangeUi ⟨true, 120, List.replicate 16 true, 1/2⟩
        ⟨true, 120, List.replicate 16 true, 3/4⟩
        ⟨true, false, 3, true, [⟨3, 20⟩]⟩).pollActive = true ∧
    (playClick (⟨true, 120, List.replicate 16 true, 3/4⟩ : EffectDeps).volume
      0 51).rampTarget = 3 / 4 := by
  have h := volume_change_resync ⟨true, 120, List.replicate 16 true, 1/2⟩
    ⟨true, 120, List.replicate 16 true, 3/4⟩ 50 ⟨7, 320, false⟩
    ⟨true, false, 3, true, [⟨3, 20⟩]⟩ rfl rfl (by norm_num)
  exact ⟨rfl, rfl, by norm_num, h.1, h.2.1, h.2.2.1, h.2.2.2.2 0 51⟩

/-- The descending MIME-type preference list `supportedMimeTypes`
(src/src/App.tsx lines 193-197): mp4 preferred, opus-in-webm next, plain
webm as fallback. -/
def supportedMimeTypes : List String :=
  ["audio/mp4", "audio/webm;codecs=opus", "audio/webm"]

/-- The user-visible message set when no recording format is supported
(src/src/App.tsx line 201; the source file stores the text in a
double-encoded form, reproduced verbatim). -/
def noSupportedTypeMessage : String :=
  "ãŠä½¿ã„ã®ãƒ–ãƒ©ã‚¦ã‚¶ã¯ã€ã‚µãƒãƒ¼ãƒˆã•ã‚Œã¦ã„ã‚‹å½¢å¼ã§ã®éŒ²éŸ³ã«å¯¾å¿œã—ã¦ã„ã¾ã›ã‚“ã€‚"

/-- Outcome of the format-selection part of `startRecording`
(src/src/App.tsx lines 193-210), after the microphone stream was captured:
the error banner, whether the recording state stays on, whether every
track of the captured stream was stopped, whether the analyser handle was
cleared, whether a `MediaRecorder` was constructed, and which MIME type it
was given. -/
structure RecorderOutcome where
  recordingError : Option String
  isRecording : Bool
  allTracksStopped : Bool
  analyserCleared : Bool
  recorderConstructed : Bool
  chosenMimeType : Option String
deriving Repr, DecidableEq

/-- The format-selection logic of `startRecording`: the first supported
type of the preference list is chosen (`supportedMimeTypes.find`); if none
is supported the error is set, recording is toggled off, every track of
the stream is stopped and the analyser cleared, and the function returns
before constructing a recorder (src/src/App.tsx lines 198-210). -/
def startRecordingFormatSelection (isTypeSupported : String → Bool) :
    RecorderOutcome :=
  match supportedMimeTypes.find? isTypeSupported with
  | none =>
    { recordingError := some noSupportedTypeMessage
      isRecording := false
      allTracksStopped := true
      analyserCleared := true
      recorderConstructed := false
      chosenMimeType := none }
  | some t =>
    { recordingError := none
      isRecording := true
      allTracksStopped := false
      analyserCleared := false
      recorderConstructed := true
      chosenMimeType := some t }

/-- Claim C8: when none of the MIME types in the descending preference
list is supported, a descriptive error is set, the recording state
returns to off, every track of the captured stream is stopped, and no
recorder is constructed. -/
theorem unsupported_mime_teardown (isTypeSupported : String → Bool)
    (h : ∀ t ∈ supportedMimeTypes, isTypeSupported t = false) :
    (startRecordingFormatSelection isTypeSupported).recordingError =
      some noSupportedTypeMessage ∧
    (startRecordingFormatSelection isTypeSupported).isRecording = false ∧
    (startRecordingFormatSelection isTypeSupported).allTracksStopped = true ∧
    (startRecordingFormatSelection isTypeSupported).recorderConstructed = false := by
  have hfind : supportedMimeTypes.find? isTypeSupported = none := by
    rw [List.find?_eq_none]
    intro x hx
    simp [h x hx]
  unfold startRecordingFormatSelection
  rw [hfind]
  exact ⟨rfl, rfl, rfl, rfl⟩

/-- Witness for claim C8 with a browser that supports no type at all. -/
theorem unsupported_mime_teardown_witness :
    (∀ t ∈ supportedMimeTypes, (fun _ => false : String → Bool) t = false) ∧
    (startRecordingFormatSelection (fun _ => false)).recordingError =
      some noSupportedTypeMessage ∧
    (startRecordingFormatSelection (fun _ => false)).isRecording = false ∧
    (startRecordingFormatSelection (fun _ => false)).allTracksStopped = true ∧
    (startRecordingFormatSelection (fun _ => false)).recorderConstructed = false := by
  have h := unsupported_mime_teardown (fun _ => false) (fun t _ => rfl)
  exact ⟨fun t _ => rfl, h.1, h.2.1, h.2.2.1, h.2.2.2⟩

/-- JS `String.prototype.replace` with a plain string pattern replaces only
the first occurrence; this is the single-character case used by
`.replace('T', '_')` (src/src/App.tsx line 303). -/
def jsReplaceFirst (c r : Char) : List Char → List Char
  | [] => []
  | x :: xs => if x = c then r :: xs else x :: jsReplaceFirst c r xs

/-- JS `String.prototype.replace` with a global single-character regex, as
used by `.replace(/:/g, '-')` (src/src/App.tsx line 303). -/
def jsReplaceAll (c r : Char) (s : List Char) : List Char :=
  s.map fun x => if x = c then r else x

/-- JS `type.includes('mp4')` (src/src/App.tsx lines 301-302): substring
occurrence of "mp4". -/
def hasMp4 : List Char → Bool
  | 'm' :: 'p' :: '4' :: _ => true
  | _ :: rest => hasMp4 rest
  | [] => false

/-- The timestamp component of the save filename
(src/src/App.tsx line 303):
`new Date().toISOString().slice(0, 19).replace('T', '_').replace(/:/g, '-')`,
as a function of the clock's ISO-8601 string. -/
def recordingTimestamp (iso : String) : String :=
  String.mk (jsReplaceAll ':' '-' (jsReplaceFirst 'T' '_' (iso.toList.take 19)))

/-- The saved file's extension
(src/src/App.tsx line 301): mp4 when the recorded type mentions mp4, webm
otherwise. -/
def recordingExtension (ty : String) : String :=
  if hasMp4 ty.toList then "mp4" else "webm"

/-- The saved file's name as `handleSaveRecording` builds it
(src/src/App.tsx line 304). -/
def recordingFilename (iso ty : String) : String :=
  "metronome-recording_" ++ recordingTimestamp iso ++ "." ++ recordingExtension ty

/-- The filename pattern exactly as claim C9 words it: the ISO-8601
timestamp (truncated to seconds) with each ':' replaced by '-' and
nothing else changed, so the 'T' date-time separator survives. -/
def claimedFilename (iso ty : String) : String :=
  "metronome-recording_" ++ String.mk (jsReplaceAll ':' '-' (iso.toList.take 19))
    ++ "." ++ recordingExtension ty

/-- One-pass statement of the amended filename pattern: truncate the
ISO-8601 string to seconds, replace the first 'T' by '_' and every ':'
by '-'. -/
def amendedStamp : Bool → List Char → List Char
  | _, [] => []
  | seenT, x :: xs =>
    if x = ':' then '-' :: amendedStamp seenT xs
    else if x = 'T' ∧ seenT = false then '_' :: amendedStamp true xs
    else x :: amendedStamp seenT xs

/-- Counterexample to claim C9: on the ISO string of an actual clock
reading the code's filename and the claimed pattern differ, because the
code also replaces the 'T' separator by '_'. -/
theorem filename_pattern_counterexample :
    recordingFilename "2026-10-12T14:30:05.123Z" "audio/webm" ≠
      claimedFilename "2026-10-12T14:30:05.123Z" "audio/webm" := by decide

theorem amendedStamp_true (l : List Char) :
    amendedStamp true l = jsReplaceAll ':' '-' l := by
  induction l with
  | nil => rfl
  | cons x xs ih =>
    by_cases hx : x = ':'
    · simp [amendedStamp, jsReplaceAll, hx, ih]
    · simp [amendedStamp, jsReplaceAll, hx, ih]

theorem amendedStamp_false (l : List Char) :
    amendedStamp false l = jsReplaceAll ':' '-' (jsReplaceFirst 'T' '_' l) := by
  induction l with
  | nil => rfl
  | cons x xs ih =>
    by_cases hT : x = 'T'
    · subst hT
      simp [amendedStamp, jsReplaceFirst, jsReplaceAll, amendedStamp_true]
    · by_cases hx : x = ':'
      · simp [amendedStamp, jsReplaceFirst, jsReplaceAll, hx, hT, ih]
      · simp [amendedStamp, jsReplaceFirst, jsReplaceAll, hx, hT, ih]

/-- Claim C9 as amended: for every clock ISO string and recorded type, the
saved file's name is `metronome-recording_` followed by the ISO-8601
timestamp truncated to seconds with the 'T' date-time separator replaced
by '_' and each ':' replaced by '-', a dot, and the extension mp4 when
the recorder's chosen format mentions mp4 and webm otherwise. -/
theorem filename_amended (iso ty : String) :
    recordingFilename iso ty =
      "metronome-recording_" ++
        String.mk (amendedStamp false (iso.toList.take 19)) ++ "." ++
        (if hasMp4 ty.toList then "mp4" else "webm") := by
  unfold recordingFilename recordingTimestamp recordingExtension
  rw [amendedStamp_false]

end Metronome

namespace RootApp

/-- Transcription of the scheduler of the second copy of the app,
src/App.tsx, over the same data model.  Lookahead window
`scheduleAheadTime = 0.1` (src/App.tsx line 118). -/
def scheduleAheadTime : ℚ := 1 / 10

/-- `const secondsPerBeat = 60.0 / tempo` (src/App.tsx line 149). -/
def secondsPerBeat (tempo : ℚ) : ℚ := 60 / tempo

/-- The emission part of one iteration of the while-loop of `scheduler` in
src/App.tsx (lines 123-147). -/
def mkEvent (pattern : List Bool) (ci : Bool) (now : ℚ)
    (st : Metronome.SchedState) : Metronome.BeatEvent :=
  let beat := st.currentBeat
  let time := st.nextNoteTime
  let visualBeat := if beat < 0 then beat + 4 else beat
  let delay := (time - now) * 1000
  { beat := beat
    time := time
    visualBeat := visualBeat
    clickPlayed := if beat < 0 then true else pattern.getD beat.toNat false
    clickBeatArg := if beat < 0 then visualBeat else beat
    countInFlip := if beat < 0 then false else (beat == 0 && ci)
    visualDelayMs := if delay > 0 then delay else 0 }

/-- The state-update part of one iteration of the while-loop of
`scheduler` in src/App.tsx (lines 149-154). -/
def stepState (tempo : ℚ) (st : Metronome.SchedState) : Metronome.SchedState :=
  let b := st.currentBeat + 1
  { currentBeat := if 16 ≤ b then 0 else b
    nextNoteTime := st.nextNoteTime + secondsPerBeat tempo }

/-- The while-loop of `scheduler` in src/App.tsx with an explicit
iteration bound, in the same form as `Metronome.loopFuel`. -/
def loopFuel (tempo : ℚ) (pattern : List Bool) (ci : Bool) (now : ℚ) :
    Nat → Metronome.SchedState → Metronome.SchedState × List Metronome.BeatEvent
  | 0, st => (st, [])
  | fuel + 1, st =>
    if st.nextNoteTime < now + scheduleAheadTime then
      let r := loopFuel tempo pattern ci now fuel (stepState tempo st)
      (r.1, mkEvent pattern ci now st :: r.2)
    else (st, [])

/-- The iteration bound used to instantiate the fuel. -/
def neededBeats (tempo now t : ℚ) : Nat :=
  (⌈(now + scheduleAheadTime - t) * tempo / 60⌉).toNat

/-- One synchronous call of `scheduler` as defined in src/App.tsx
(lines 121-156). -/
def schedulerLoop (tempo : ℚ) (pattern : List Bool) (ci : Bool) (now : ℚ)
    (st : Metronome.SchedState) : Metronome.SchedState × List Metronome.BeatEvent :=
  loopFuel tempo pattern ci now (neededBeats tempo now st.nextNoteTime) st

end RootApp

namespace Metronome

/-- Claim C10: for every scheduler state, tempo, pattern, counting-in flag
and clock reading, one poll of the scheduler of src/App.tsx and one poll
of the scheduler of src/src/App.tsx produce the same scheduled beats
(same beat indices, audio times, audibility decisions and visual indices)
and the same resulting cursor and next-note time. -/
theorem schedulers_equivalent (tempo : ℚ) (pattern : List Bool) (ci : Bool)
    (now : ℚ) (st : SchedState) :
    RootApp.schedulerLoop tempo pattern ci now st =
      schedulerLoop tempo pattern ci now st := by
  have hloop : ∀ (fuel : Nat) (s : SchedState),
      RootApp.loopFuel tempo pattern ci now fuel s =
        loopFuel tempo pattern ci now fuel s := by
    intro fuel
    induction fuel with
    | zero => intro s; rfl
    | succ fuel ih =>
      intro s
      show (if s.nextNoteTime < now + RootApp.scheduleAheadTime then
          ((RootApp.loopFuel tempo pattern ci now fuel
              (RootApp.stepState tempo s)).1,
            RootApp.mkEvent pattern ci now s ::
              (RootApp.loopFuel tempo pattern ci now fuel
                (RootApp.stepState tempo s)).2)
        else (s, [])) = _
      rw [ih (RootApp.stepState tempo s)]
      rfl
  show RootApp.loopFuel tempo pattern ci now
      (RootApp.neededBeats tempo now st.nextNoteTime) st = _
  rw [hloop]
  rfl

end Metronome
